import Mathlib

/-!
# Shallow embedding of the songwalker-core audio engine

This file embeds the parts of the Rust crate `songwalker-core` that the
verified properties below speak about: the compiler-facing event data model
(`src/compiler.rs`), note-name parsing and note scheduling
(`src/dsp/engine.rs`), the ADSR envelope (`src/dsp/envelope.rs`), the mixer
(`src/dsp/mixer.rs`), sampler voices (`src/dsp/sampler.rs`), composite
instruments (`src/dsp/composite.rs`), the chorus effect (`src/dsp/chorus.rs`)
and the engine's voice-activation / block-render loop.

Modelling conventions:
* Rust `f64` arithmetic on the render path is modelled exactly over `ℚ`.
  Transcendental operations (`sin`, `tanh`, `2^x` at non-integer exponents)
  are taken as function parameters of the definitions that use them, or are
  expressed over `ℝ` in theorem statements.
* The cast `x as usize` (f64 → usize) truncates toward zero and saturates at
  zero for negative inputs; this is `f64ToUsize`.
* `usize` subtraction compiles to wrapping subtraction modulo `2^64` in
  release builds (it panics in debug builds); this is `usizeWrapSub`.
* `String` fields stay `String`; the standard library's `str::parse::<f64>`
  is taken as a parameter `parse : String → Option ℚ`, while
  `str::parse::<i32>` (used by note-name parsing, repo code) is modelled
  concretely by `parseI32` (without the i32 overflow bound, which the engine
  never reaches for octave numbers).
-/

namespace Songwalker

/-- Rust `x as usize` on a finite `f64`: truncate toward zero, saturating at
zero for negative values. For `q ≥ 0` this is `⌊q⌋` (`Rat.floor` is used so
that the definition evaluates by kernel reduction). -/
def f64ToUsize (q : ℚ) : ℕ := (Rat.floor q).toNat

/-- Mathematical `round(q)` (half away from zero for `q ≥ 0`), used only to
state the specification's claimed `round(·)` conversions. -/
def f64Round (q : ℚ) : ℤ := Rat.floor (q + 1/2)

/-- One past the largest `usize` value (64-bit target). -/
def USIZE : ℕ := 2 ^ 64

/-- Wrapping `usize` subtraction `a - b` for `b ≤ USIZE`, as compiled in
release builds. -/
def usizeWrapSub (a b : ℕ) : ℕ := (a + USIZE - b) % USIZE

/-! ## Compiler data model (`src/compiler.rs`) -/

/-- `EndMode` (compiler.rs:10). -/
inductive EndMode where
  | gate
  | release
  | tail
deriving DecidableEq

/-- `InstrumentConfig` (compiler.rs:33). -/
structure InstrumentConfig where
  waveform : String
  attack : Option ℚ
  decay : Option ℚ
  sustain : Option ℚ
  release : Option ℚ
  detune : Option ℚ
  mixer : Option ℚ
  preset_ref : Option String
deriving DecidableEq

/-- `InstrumentConfig::default()` (compiler.rs:54). -/
def InstrumentConfig.default : InstrumentConfig :=
  { waveform := "triangle", attack := none, decay := none, sustain := none,
    release := none, detune := none, mixer := none, preset_ref := none }

/-- `EventKind` (compiler.rs:92). -/
inductive EventKind where
  | note (pitch : String) (velocity : ℚ) (gate : ℚ)
      (instrument : InstrumentConfig) (source_start source_end : ℕ)
  | trackStart (track_name : String) (velocity : Option ℚ)
      (play_duration : Option ℚ) (args : List String)
  | setProperty (target value : String)
  | presetRef (name : String)
deriving DecidableEq

/-- `Event` (compiler.rs:83). -/
structure Event where
  time : ℚ
  kind : EventKind
  track_name : Option String
deriving DecidableEq

/-- `EventList` (compiler.rs:72). -/
structure EventList where
  events : List Event
  total_beats : ℚ
  end_mode : EndMode
deriving DecidableEq

/-! ## Note-name parsing (`src/dsp/engine.rs:86`) -/

/-- Base semitone of a note-name letter (engine.rs:94). -/
def charBase : Char → Option ℤ
  | 'C' => some 0
  | 'D' => some 2
  | 'E' => some 4
  | 'F' => some 5
  | 'G' => some 7
  | 'A' => some 9
  | 'B' => some 11
  | _ => none

/-- Digits-to-number accumulator for `parseI32`. -/
def natFromDigits (l : List Char) : ℕ :=
  l.foldl (fun acc c => acc * 10 + (c.toNat - ('0').toNat)) 0

/-- Rust `str::parse::<i32>` on the octave suffix: optional `+`/`-` sign
followed by one or more ASCII digits (i32 overflow not modelled). -/
def parseI32 (s : String) : Option ℤ :=
  match s.toList with
  | [] => none
  | c :: rest =>
    let signed : ℤ × List Char :=
      if c = '-' then (-1, rest) else if c = '+' then (1, rest) else (1, c :: rest)
    if signed.2 = [] then none
    else if signed.2.all Char.isDigit then some (signed.1 * natFromDigits signed.2)
    else none

/-- `note_to_midi` (engine.rs:86): note letter, optional accidental, octave
number; `C4 = 60`. -/
def noteToMidi (note : String) : Option ℤ :=
  match note.toList with
  | [] => none
  | c :: rest =>
    match charBase c with
    | none => none
    | some base =>
      let acc : ℤ × List Char :=
        match rest with
        | a :: rest2 =>
          if a = '#' then (base + 1, rest2)
          else if a = 'b' then (base - 1, rest2)
          else (base, rest)
        | [] => (base, [])
      match parseI32 (String.mk acc.2) with
      | none => none
      | some octave => some ((octave + 1) * 12 + acc.1)

/-- `midi_to_frequency` (engine.rs:135) as a graph relation over `ℝ` (the
value `tuning_pitch * 2^((midi - 69)/12)` is irrational in general, so the
embedding keeps the MIDI number and relates it to the real frequency here).
-/
def MidiFreq (midi : ℤ) (tuning f : ℝ) : Prop :=
  f = tuning * (2 : ℝ) ^ (((midi : ℝ) - 69) / 12)

/-- `note_to_midi_from_freq` (engine.rs:159) inverts `midi_to_frequency`
exactly in real arithmetic: `round(69 + 12·log2(f/tuning)) = midi` when
`f = tuning·2^((midi-69)/12)`, then clamps to `[0,127]`. The embedding
applies the equivalent clamp to the MIDI number directly. -/
def clampMidi (midi : ℤ) : ℕ := (max 0 (min midi 127)).toNat

/-! ## Note scheduling and render length (`src/dsp/engine.rs:323`) -/

/-- `ScheduledNote` (engine.rs:165). The source stores `frequency : f64`
computed as `midi_to_frequency(midi, tuning)`, which determines and is
determined by the MIDI number (for a fixed tuning); the embedding keeps the
MIDI number, relating it to the source's frequency via `MidiFreq`. -/
structure SNote where
  start_sample : ℕ
  release_sample : ℕ
  midi : ℤ
  velocity : ℚ
  instrument : InstrumentConfig
deriving DecidableEq

/-- Step 1 of `render` (engine.rs:327): fold over all events, overwriting
`bpm` / `tuning_pitch` with every `SetProperty` whose value parses. -/
def applyProp (parse : String → Option ℚ) (bt : ℚ × ℚ) (e : Event) : ℚ × ℚ :=
  match e.kind with
  | .setProperty target value =>
    if target = "track.beatsPerMinute" then
      match parse value with
      | some v => (v, bt.2)
      | none => bt
    else if target = "track.tuningPitch" then
      match parse value with
      | some v => (bt.1, v)
      | none => bt
    else bt
  | _ => bt

/-- BPM and tuning extraction (engine.rs:324-339), starting from the
engine's configured defaults. -/
def extractBpmTuning (parse : String → Option ℚ) (defBpm defTuning : ℚ)
    (events : List Event) : ℚ × ℚ :=
  events.foldl (applyProp parse) (defBpm, defTuning)

/-- Step 2 of `render` (engine.rs:347-373): each `Note` event with a
parseable pitch becomes a `ScheduledNote`; the start and gate lengths are
converted with `as usize` truncation. -/
def scheduleEvents (sr bpm : ℚ) (events : List Event) : List SNote :=
  events.filterMap fun e =>
    match e.kind with
    | .note pitch velocity gate instrument _ _ =>
      match noteToMidi pitch with
      | some midi =>
        let start := f64ToUsize (e.time * 60 / bpm * sr)
        some { start_sample := start
               release_sample := start + f64ToUsize (gate * 60 / bpm * sr)
               midi := midi
               velocity := velocity / 127
               instrument := instrument }
      | none => none
    | _ => none

/-- `scheduled.sort_by_key(|n| n.start_sample)` (engine.rs:376): stable
sort by start sample. -/
def sortSchedule (l : List SNote) : List SNote :=
  l.mergeSort (fun a b => a.start_sample ≤ b.start_sample)

/-- The sorted schedule a `render` call works from. -/
def renderSchedule (parse : String → Option ℚ) (sr defBpm defTuning : ℚ)
    (evl : EventList) : List SNote :=
  sortSchedule (scheduleEvents sr
    (extractBpmTuning parse defBpm defTuning evl.events).1 evl.events)

/-- `cursor_samples` (engine.rs:341-344). -/
def cursorSamples (sr bpm total_beats : ℚ) : ℕ :=
  f64ToUsize (total_beats * 60 / bpm * sr)

/-- Default envelope release seconds (engine.rs:380). -/
def defaultRelease : ℚ := 3 / 10

/-- `effects_tail_samples` (engine.rs:382). -/
def effectsTailSamples (sr : ℚ) : ℕ := f64ToUsize (1/2 * sr)

/-- Per-note end sample in `EndMode::Release` (engine.rs:392-398). -/
def noteReleaseEnd (sr : ℚ) (n : SNote) : ℕ :=
  n.release_sample + f64ToUsize ((n.instrument.release.getD defaultRelease) * sr)

/-- `total_samples` (engine.rs:384-414): latest per-note end for the end
mode, floored at the beat-cursor length. -/
def totalSamples (sr : ℚ) (endMode : EndMode) (cursor : ℕ)
    (scheduled : List SNote) : ℕ :=
  match endMode with
  | .gate => max cursor ((scheduled.map (·.release_sample)).foldr max 0)
  | .release => max cursor ((scheduled.map (noteReleaseEnd sr)).foldr max 0)
  | .tail => max cursor
      ((scheduled.map (fun n => noteReleaseEnd sr n + effectsTailSamples sr)).foldr max 0)

/-- Length of the buffer `render` returns (engine.rs:420: `vec![0.0; total_samples]`;
the block loop writes in place and never changes the length). -/
def renderLen (parse : String → Option ℚ) (sr defBpm defTuning : ℚ)
    (evl : EventList) : ℕ :=
  let bpm := (extractBpmTuning parse defBpm defTuning evl.events).1
  totalSamples sr evl.end_mode (cursorSamples sr bpm evl.total_beats)
    (renderSchedule parse sr defBpm defTuning evl)

/-! ## ADSR envelope (`src/dsp/envelope.rs`) -/

/-- `Stage` (envelope.rs:5). -/
inductive EnvStage where
  | idle
  | attack
  | decay
  | sustain
  | release
deriving DecidableEq

/-- `Envelope` (envelope.rs:15). -/
structure Envelope where
  attack : ℚ
  decay : ℚ
  sustain : ℚ
  release : ℚ
  stage : EnvStage
  level : ℚ
  sample_rate : ℚ
  stage_samples : ℕ
  stage_counter : ℕ
  start_level : ℚ
deriving DecidableEq

/-- `Envelope::new` (envelope.rs:36). -/
def Envelope.new (sr : ℚ) : Envelope :=
  { attack := 1/100, decay := 1/10, sustain := 7/10, release := 3/10,
    stage := .idle, level := 0, sample_rate := sr,
    stage_samples := 0, stage_counter := 0, start_level := 0 }

/-- `Envelope::gate_on` (envelope.rs:52): start Attack from the current
level. -/
def Envelope.gateOn (e : Envelope) : Envelope :=
  { e with stage := .attack,
           stage_samples := f64ToUsize (e.attack * e.sample_rate),
           stage_counter := 0,
           start_level := e.level }

/-- `Envelope::gate_off` (envelope.rs:60): no-op when Idle, otherwise enter
Release from the current level. -/
def Envelope.gateOff (e : Envelope) : Envelope :=
  if e.stage = .idle then e
  else
    { e with stage := .release,
             stage_samples := f64ToUsize (e.release * e.sample_rate),
             stage_counter := 0,
             start_level := e.level }

/-- `Envelope::enter_decay` (envelope.rs:130). -/
def Envelope.enterDecay (e : Envelope) : Envelope :=
  { e with stage := .decay,
           stage_samples := f64ToUsize (e.decay * e.sample_rate),
           stage_counter := 0 }

/-- `Envelope::next_sample` (envelope.rs:71): advance one sample, return
the new level. -/
def Envelope.nextSample (e : Envelope) : Envelope × ℚ :=
  let e' : Envelope :=
    match e.stage with
    | .idle => { e with level := 0 }
    | .attack =>
      if e.stage_samples = 0 then Envelope.enterDecay { e with level := 1 }
      else
        let t : ℚ := (e.stage_counter : ℚ) / (e.stage_samples : ℚ)
        let e2 := { e with level := e.start_level + (1 - e.start_level) * t,
                           stage_counter := e.stage_counter + 1 }
        if e2.stage_counter ≥ e.stage_samples then
          Envelope.enterDecay { e2 with level := 1 }
        else e2
    | .decay =>
      if e.stage_samples = 0 then { e with level := e.sustain, stage := .sustain }
      else
        let t : ℚ := (e.stage_counter : ℚ) / (e.stage_samples : ℚ)
        let e2 := { e with level := 1 - (1 - e.sustain) * t,
                           stage_counter := e.stage_counter + 1 }
        if e2.stage_counter ≥ e.stage_samples then
          { e2 with level := e.sustain, stage := .sustain }
        else e2
    | .sustain => { e with level := e.sustain }
    | .release =>
      if e.stage_samples = 0 then { e with level := 0, stage := .idle }
      else
        let t : ℚ := (e.stage_counter : ℚ) / (e.stage_samples : ℚ)
        let e2 := { e with level := e.start_level * (1 - t),
                           stage_counter := e.stage_counter + 1 }
        if e2.stage_counter ≥ e.stage_samples then
          { e2 with level := 0, stage := .idle }
        else e2
  (e', e'.level)

/-- `Envelope::is_finished` (envelope.rs:126). -/
def Envelope.isFinished (e : Envelope) : Bool := e.stage = .idle

/-- One caller-visible envelope operation. -/
inductive EnvOp where
  | gateOn
  | gateOff
  | next
deriving DecidableEq

/-- Apply one operation; `next` produces an output sample. -/
def Envelope.step (e : Envelope) : EnvOp → Envelope × Option ℚ
  | .gateOn => (e.gateOn, none)
  | .gateOff => (e.gateOff, none)
  | .next => ((e.nextSample).1, some (e.nextSample).2)

/-- Run a sequence of operations, collecting every value `next_sample`
returned. -/
def Envelope.run (e : Envelope) : List EnvOp → Envelope × List ℚ
  | [] => (e, [])
  | op :: ops =>
    let r := e.step op
    let rest := Envelope.run r.1 ops
    (rest.1, r.2.toList ++ rest.2)

/-- An `Envelope::new` state whose public ADSR fields have then been set by
the caller (they are `pub` in the source). -/
def Envelope.withParams (sr a d s r : ℚ) : Envelope :=
  { Envelope.new sr with attack := a, decay := d, sustain := s, release := r }

/-! ## Mixer (`src/dsp/mixer.rs`) -/

/-- `Mixer` (mixer.rs:5). -/
structure Mixer where
  master_gain : ℚ
  buffer : List ℚ
deriving DecidableEq

/-- `Mixer::new` (mixer.rs:11): default master gain 0.8. -/
def Mixer.new : Mixer := { master_gain := 4/5, buffer := [] }

/-- `Mixer::clear` (mixer.rs:19). -/
def Mixer.clear (m : Mixer) (num_samples : ℕ) : Mixer :=
  { m with buffer := List.replicate num_samples 0 }

/-- `Mixer::add` (mixer.rs:25): accumulate into the buffer, ignoring
out-of-range indices. -/
def Mixer.add (m : Mixer) (index : ℕ) (sample : ℚ) : Mixer :=
  if index < m.buffer.length then
    { m with buffer := m.buffer.set index (m.buffer.getD index 0 + sample) }
  else m

/-- Any number of `add` calls in sequence. -/
def Mixer.runAdds (m : Mixer) (adds : List (ℕ × ℚ)) : Mixer :=
  adds.foldl (fun m p => m.add p.1 p.2) m

/-- `Mixer::output` (mixer.rs:32), parametric in the soft clipper
(`soft_clip` is `f64::tanh`, a transcendental function, so it is supplied
as the real-valued parameter `clip`). -/
def Mixer.outputWith (clip : ℚ → ℝ) (m : Mixer) : List ℝ :=
  m.buffer.map fun s => clip (s * m.master_gain)

/-! ## Sampler (`src/dsp/sampler.rs`) -/

/-- Truncation toward zero (the integral part a Rust `as` cast keeps);
`⌈q⌉ = -⌊-q⌋` is spelled with `Rat.floor` so the definition evaluates by
kernel reduction. -/
def ratTrunc (q : ℚ) : ℤ := if q < 0 then -(Rat.floor (-q)) else Rat.floor q

/-- Rust `f64::%` (`fmod`): `a - b * trunc(a / b)`, for `b ≠ 0`. -/
def f64Mod (a b : ℚ) : ℚ := a - b * (ratTrunc (a / b) : ℚ)

/-- `SampleBuffer` (sampler.rs:11). -/
structure SampleBuffer where
  data : List ℚ
  sample_rate : ℕ
deriving DecidableEq

/-- `SampleBuffer::read_interpolated` (sampler.rs:44). The `len() - 1`
subtraction only runs on a non-empty buffer, so plain `ℕ` subtraction is
exact; in-bounds indexing is modelled with `getD _ 0` (the guards keep every
read in bounds). -/
def SampleBuffer.readInterpolated (b : SampleBuffer) (position : ℚ) : ℚ :=
  if b.data.isEmpty ∨ position < 0 then 0
  else
    let idx := f64ToUsize position
    if idx ≥ b.data.length - 1 then
      if idx < b.data.length then b.data.getD idx 0 else 0
    else
      let frac := position - (idx : ℚ)
      b.data.getD idx 0 * (1 - frac) + b.data.getD (idx + 1) 0 * frac

/-- `LoadedZone` (sampler.rs:65); `u8`/`u64` fields modelled as `ℕ`. -/
structure LoadedZone where
  key_range_low : ℕ
  key_range_high : ℕ
  root_note : ℕ
  fine_tune_cents : ℚ
  sample_rate : ℕ
  loop_start : Option ℕ
  loop_end : Option ℕ
  buffer : SampleBuffer
deriving DecidableEq

/-- `LoadedZone::contains_note` (sampler.rs:92). -/
def LoadedZone.containsNote (z : LoadedZone) (midi : ℕ) : Bool :=
  decide (z.key_range_low ≤ midi) && decide (midi ≤ z.key_range_high)

/-- `Sampler` (sampler.rs:99). -/
structure Sampler where
  zones : List LoadedZone
  is_drum_kit : Bool
deriving DecidableEq

/-- `Sampler::find_zone` (sampler.rs:110): first zone whose key range
contains the note. -/
def Sampler.findZone (s : Sampler) (midi : ℕ) : Option LoadedZone :=
  s.zones.find? (fun z => z.containsNote midi)

/-- `EnvState` of the sampler's own envelope (sampler.rs:160). -/
inductive SEnvState where
  | idle
  | attack
  | decay
  | sustain
  | release
  | done
deriving DecidableEq

/-- `SamplerEnvelope` (sampler.rs:148). -/
structure SamplerEnvelope where
  attack : ℚ
  decay : ℚ
  sustain : ℚ
  release : ℚ
  sample_rate : ℚ
  state : SEnvState
  level : ℚ
  samples_in_state : ℕ
deriving DecidableEq

/-- `SamplerEnvelope::new` (sampler.rs:170). -/
def SamplerEnvelope.new (sr : ℚ) : SamplerEnvelope :=
  { attack := 1/200, decay := 1/10, sustain := 1, release := 1/10,
    sample_rate := sr, state := .idle, level := 0, samples_in_state := 0 }

/-- `SamplerEnvelope::note_on` (sampler.rs:183). -/
def SamplerEnvelope.noteOn (e : SamplerEnvelope) : SamplerEnvelope :=
  { e with state := .attack, samples_in_state := 0 }

/-- `SamplerEnvelope::note_off` (sampler.rs:188). -/
def SamplerEnvelope.noteOff (e : SamplerEnvelope) : SamplerEnvelope :=
  if e.state ≠ .done ∧ e.state ≠ .idle then
    { e with state := .release, samples_in_state := 0 }
  else e

/-- `SamplerEnvelope::next_sample` (sampler.rs:195): the counter is
incremented before the stage logic runs. -/
def SamplerEnvelope.nextSample (e : SamplerEnvelope) : SamplerEnvelope × ℚ :=
  let e := { e with samples_in_state := e.samples_in_state + 1 }
  match e.state with
  | .idle => (e, 0)
  | .attack =>
    let attack_samples := f64ToUsize (e.attack * e.sample_rate)
    if attack_samples = 0 ∨ e.samples_in_state ≥ attack_samples then
      let e' := { e with state := .decay, samples_in_state := 0, level := 1 }
      (e', e'.level)
    else
      let e' := { e with level := (e.samples_in_state : ℚ) / (attack_samples : ℚ) }
      (e', e'.level)
  | .decay =>
    let decay_samples := f64ToUsize (e.decay * e.sample_rate)
    if decay_samples = 0 ∨ e.samples_in_state ≥ decay_samples then
      let e' := { e with state := .sustain, samples_in_state := 0, level := e.sustain }
      (e', e'.level)
    else
      let t : ℚ := (e.samples_in_state : ℚ) / (decay_samples : ℚ)
      let e' := { e with level := 1 - t * (1 - e.sustain) }
      (e', e'.level)
  | .sustain =>
    let e' := { e with level := e.sustain }
    (e', e'.level)
  | .release =>
    let release_samples := f64ToUsize (e.release * e.sample_rate)
    if release_samples = 0 ∨ e.samples_in_state ≥ release_samples then
      let e' := { e with state := .done, level := 0 }
      (e', e'.level)
    else
      let t : ℚ := (e.samples_in_state : ℚ) / (release_samples : ℚ)
      let e' := { e with level := e.sustain * (1 - t) }
      (e', e'.level)
  | .done => (e, 0)

/-- `SamplerEnvelope::is_done` (sampler.rs:241). -/
def SamplerEnvelope.isDone (e : SamplerEnvelope) : Bool := e.state = .done

/-- `SamplerVoice` (sampler.rs:119). -/
structure SamplerVoice where
  position : ℚ
  playback_rate : ℚ
  sample_rate_ratio : ℚ
  loop_start : Option ℕ
  loop_end : Option ℕ
  velocity : ℚ
  buffer_len : ℕ
  finished : Bool
  released : Bool
  release_sample : ℕ
  envelope : SamplerEnvelope
  buffer : SampleBuffer
deriving DecidableEq

/-- `SamplerVoice::new` (sampler.rs:255). The pitch rate
`sample_playback_rate` (preset.rs:341) is `2^((target−root−cents/100)/12) ·
tuning/440`, a transcendental function supplied as the parameter
`pitchRate (target root : ℕ) (cents tuning : ℚ)`. -/
def SamplerVoice.new (pitchRate : ℕ → ℕ → ℚ → ℚ → ℚ) (zone : LoadedZone)
    (midi : ℕ) (velocity tuning engine_sr : ℚ) : SamplerVoice :=
  { position := 0,
    playback_rate := pitchRate midi zone.root_note zone.fine_tune_cents tuning,
    sample_rate_ratio := (zone.sample_rate : ℚ) / engine_sr,
    loop_start := zone.loop_start,
    loop_end := zone.loop_end,
    velocity := velocity,
    buffer_len := zone.buffer.data.length,
    finished := false,
    released := false,
    release_sample := USIZE - 1,
    envelope := (SamplerEnvelope.new engine_sr).noteOn,
    buffer := zone.buffer }

/-- `SamplerVoice::next_sample` (sampler.rs:293). -/
def SamplerVoice.nextSample (v : SamplerVoice) : SamplerVoice × ℚ :=
  if v.finished then (v, 0)
  else
    let sample := v.buffer.readInterpolated v.position
    let pos1 := v.position + v.playback_rate * v.sample_rate_ratio
    let pos2 :=
      match v.loop_start, v.loop_end with
      | some ls, some le =>
        if ¬ v.released ∧ pos1 ≥ (le : ℚ) ∧ (le : ℚ) > (ls : ℚ) then
          (ls : ℚ) + f64Mod (pos1 - (le : ℚ)) ((le : ℚ) - (ls : ℚ))
        else pos1
      | _, _ => pos1
    if pos2 ≥ (v.buffer_len : ℚ) then
      ({ v with position := pos2, finished := true }, 0)
    else
      let r := v.envelope.nextSample
      ({ v with position := pos2, envelope := r.1,
                finished := r.1.isDone },
       sample * r.2 * v.velocity)

/-- `SamplerVoice::note_off` (sampler.rs:331). -/
def SamplerVoice.noteOff (v : SamplerVoice) : SamplerVoice :=
  { v with released := true, envelope := v.envelope.noteOff }

/-- `SamplerVoice::is_finished` (sampler.rs:337). -/
def SamplerVoice.isFinished (v : SamplerVoice) : Bool := v.finished

/-! ## Composite voices (`src/dsp/composite.rs:149`) and the engine's
composite voice group (`src/dsp/engine.rs:41`) -/

/-- `CompositeVoice` (composite.rs:149): an enum currently wrapping only
`SamplerVoice`. -/
inductive CompositeVoice where
  | sampler (v : SamplerVoice)
deriving DecidableEq

/-- `CompositeVoice::next_sample` (composite.rs:155). -/
def CompositeVoice.nextSample : CompositeVoice → CompositeVoice × ℚ
  | .sampler v => let r := v.nextSample; (.sampler r.1, r.2)

/-- `CompositeVoice::note_off` (composite.rs:161). -/
def CompositeVoice.noteOff : CompositeVoice → CompositeVoice
  | .sampler v => .sampler v.noteOff

/-- `CompositeVoice::is_finished` (composite.rs:167). -/
def CompositeVoice.isFinished : CompositeVoice → Bool
  | .sampler v => v.isFinished

/-- `ActiveVoice::next_sample`, `Composite` arm (engine.rs:41-52): every
sub-voice is stepped in order and the samples are summed; the sum is divided
by the total number of sub-voices whenever there is more than one. -/
def compositeNextSample (voices : List CompositeVoice) :
    List CompositeVoice × ℚ :=
  let folded := voices.foldl
    (fun (acc : List CompositeVoice × ℚ) v =>
      let r := v.nextSample
      (acc.1 ++ [r.1], acc.2 + r.2)) ([], 0)
  (folded.1, if voices.length > 1 then folded.2 / (voices.length : ℚ) else folded.2)

/-! ## Composite instruments (`src/dsp/composite.rs`) -/

/-- `CompositeMode` (composite.rs:12). -/
inductive CompositeMode where
  | layer
  | split
  | chain
deriving DecidableEq

mutual
/-- `CompositeInstrument` (composite.rs:23). -/
inductive CompositeInstrument where
  | mk (mode : CompositeMode) (children : List CompositeChild)
       (mix_levels : Option (List ℚ)) (split_points : Option (List ℕ))

/-- `CompositeChild` (composite.rs:34). -/
inductive CompositeChild where
  | sampler (s : Sampler)
  | composite (c : CompositeInstrument)
end

def CompositeInstrument.mode : CompositeInstrument → CompositeMode
  | .mk m _ _ _ => m

def CompositeInstrument.children : CompositeInstrument → List CompositeChild
  | .mk _ c _ _ => c

def CompositeInstrument.mix_levels : CompositeInstrument → Option (List ℚ)
  | .mk _ _ ml _ => ml

def CompositeInstrument.split_points : CompositeInstrument → Option (List ℕ)
  | .mk _ _ _ sp => sp

/-- The `child_idx` loop of Split mode (composite.rs:87-92): the final value
is `i + 1` for the last boundary index `i` with `midi_note >= pt`, else 0. -/
def splitChildIdx (split_pts : List ℕ) (midi : ℕ) : ℕ :=
  split_pts.enum.foldl (fun acc p => if p.2 ≤ midi then p.1 + 1 else acc) 0

mutual
/-- `CompositeInstrument::trigger_note` (composite.rs:62). In Split mode
with explicit split points the child index is clamped with
`child_idx.min(self.children.len() - 1)` where the `usize` subtraction wraps
modulo `2^64` in release builds (`usizeWrapSub`). -/
def CompositeInstrument.triggerNote (pitchRate : ℕ → ℕ → ℚ → ℚ → ℚ)
    (c : CompositeInstrument) (midi : ℕ) (velocity tuning sr : ℚ) :
    List CompositeVoice :=
  match c with
  | .mk mode children mix_levels split_points =>
    match mode with
    | .layer => triggerLayer pitchRate children mix_levels 0 midi velocity tuning sr
    | .split =>
      match split_points with
      | some split_pts =>
        let child_idx := min (splitChildIdx split_pts midi)
          (usizeWrapSub children.length 1)
        match hc : children.get? child_idx with
        | some child => triggerChild pitchRate child midi velocity tuning sr
        | none => []
      | none => triggerSplitProbe pitchRate children midi velocity tuning sr
    | .chain =>
      match children with
      | child :: _ => triggerChild pitchRate child midi velocity tuning sr
      | [] => []
termination_by sizeOf c
decreasing_by
  all_goals simp_wf
  all_goals try omega
  · have := List.sizeOf_lt_of_mem (List.get?_mem hc)
    omega

/-- Layer arm of `trigger_note` (composite.rs:70-81): each child is
triggered at `velocity * mix_levels[i]` (1.0 when absent). -/
def triggerLayer (pitchRate : ℕ → ℕ → ℚ → ℚ → ℚ)
    (children : List CompositeChild) (mix_levels : Option (List ℚ)) (i : ℕ)
    (midi : ℕ) (velocity tuning sr : ℚ) : List CompositeVoice :=
  match children with
  | [] => []
  | child :: rest =>
    let mix := (mix_levels.bind (fun levels => levels.get? i)).getD 1
    triggerChild pitchRate child midi (velocity * mix) tuning sr ++
      triggerLayer pitchRate rest mix_levels (i + 1) midi velocity tuning sr
termination_by sizeOf children
decreasing_by
  all_goals simp_wf
  all_goals omega

/-- Split arm without explicit split points (composite.rs:100-109): probe
children in order and keep the first non-empty voice list. -/
def triggerSplitProbe (pitchRate : ℕ → ℕ → ℚ → ℚ → ℚ)
    (children : List CompositeChild) (midi : ℕ) (velocity tuning sr : ℚ) :
    List CompositeVoice :=
  match children with
  | [] => []
  | child :: rest =>
    let voices := triggerChild pitchRate child midi velocity tuning sr
    if voices.isEmpty then triggerSplitProbe pitchRate rest midi velocity tuning sr
    else voices
termination_by sizeOf children
decreasing_by
  all_goals simp_wf
  all_goals omega

/-- `trigger_child` (composite.rs:125). -/
def triggerChild (pitchRate : ℕ → ℕ → ℚ → ℚ → ℚ)
    (child : CompositeChild) (midi : ℕ) (velocity tuning sr : ℚ) :
    List CompositeVoice :=
  match child with
  | .sampler s =>
    match s.findZone midi with
    | some zone => [.sampler (SamplerVoice.new pitchRate zone midi velocity tuning sr)]
    | none => []
  | .composite c => c.triggerNote pitchRate midi velocity tuning sr
termination_by sizeOf child
decreasing_by
  all_goals simp_wf
  all_goals omega
end

/-! ## Oscillator voices (`src/dsp/oscillator.rs`, `src/dsp/voice.rs`) -/

/-- `Waveform` (oscillator.rs:7). -/
inductive Waveform where
  | sine
  | square
  | sawtooth
  | triangle
deriving DecidableEq

/-- `Oscillator` (oscillator.rs:16). The `frequency : f64` field is the
real number `tuning·2^((midi−69)/12)` whenever the engine sets it from a
scheduled note (engine.rs:455 via `note_on`); the embedding stores the MIDI
number instead and relates it to the source's frequency via `MidiFreq`
(`Oscillator::new` defaults to 440 Hz = MIDI 69 at standard tuning). -/
structure Oscillator where
  waveform : Waveform
  midi : ℤ
  detune : ℚ
  phase : ℚ
  sample_rate : ℚ
deriving DecidableEq

/-- `Oscillator::new` (oscillator.rs:25). -/
def Oscillator.new (w : Waveform) (sr : ℚ) : Oscillator :=
  { waveform := w, midi := 69, detune := 0, phase := 0, sample_rate := sr }

/-- `Oscillator::reset` (oscillator.rs:101). -/
def Oscillator.reset (o : Oscillator) : Oscillator := { o with phase := 0 }

/-- `parse_waveform` (voice.rs:22): unrecognized names default to
Triangle. -/
def parseWaveform (s : String) : Waveform :=
  if s = "sine" then .sine
  else if s = "square" then .square
  else if s = "sawtooth" ∨ s = "saw" then .sawtooth
  else if s = "triangle" then .triangle
  else .triangle

/-- `Voice` (voice.rs:10). -/
structure Voice where
  oscillator : Oscillator
  envelope : Envelope
  velocity : ℚ
  release_sample : ℕ
  finished : Bool
deriving DecidableEq

/-- `Voice::with_config` (voice.rs:44). -/
def Voice.withConfig (sr : ℚ) (config : InstrumentConfig) : Voice :=
  let osc0 := Oscillator.new (parseWaveform config.waveform) sr
  let osc := match config.detune with
             | some d => { osc0 with detune := d }
             | none => osc0
  let env0 := Envelope.new sr
  let env1 := match config.attack with
              | some a => { env0 with attack := a }
              | none => env0
  let env2 := match config.decay with
              | some d => { env1 with decay := d }
              | none => env1
  let env3 := match config.sustain with
              | some s => { env2 with sustain := s }
              | none => env2
  let env := match config.release with
             | some r => { env3 with release := r }
             | none => env3
  { oscillator := osc, envelope := env, velocity := 1,
    release_sample := USIZE - 1, finished := false }

/-- `Voice::note_on` (voice.rs:75): set the frequency (here: the MIDI
number standing for it), reset the oscillator phase, store the velocity and
trigger the envelope. -/
def Voice.noteOn (v : Voice) (midi : ℤ) (velocity : ℚ) : Voice :=
  { v with oscillator := { v.oscillator with midi := midi }.reset,
           velocity := velocity,
           finished := false,
           envelope := v.envelope.gateOn }

/-- `Voice::note_off` (voice.rs:84). -/
def Voice.noteOff (v : Voice) : Voice :=
  { v with envelope := v.envelope.gateOff }

/-- `Voice::is_finished` (voice.rs:105). -/
def Voice.isFinished (v : Voice) : Bool := v.finished

/-! ## Engine voice activation (`src/dsp/engine.rs:429-495`) -/

/-- `RegisteredPreset` (engine.rs:22). -/
inductive RegisteredPreset where
  | sampler (s : Sampler)
  | composite (c : CompositeInstrument)

/-- `ActiveVoice` (engine.rs:28). -/
inductive ActiveVoice where
  | oscillator (v : Voice)
  | sampler (v : SamplerVoice)
  | composite (voices : List CompositeVoice) (release_sample : ℕ)

/-- The oscillator fallback path (engine.rs:453-456, 469-472, 480-483,
487-490): `Voice::with_config` from the note's instrument, the note's
release sample, then `note_on(frequency, velocity)`. -/
def mkOscVoice (sr : ℚ) (note : SNote) : Voice :=
  ({ Voice.withConfig sr note.instrument with
     release_sample := note.release_sample }).noteOn note.midi note.velocity

/-- The voice-construction branch of `render` for one scheduled note
(engine.rs:435-491). The registry is the `HashMap` lookup
`preset_registry.get`; `note_to_midi_from_freq` (engine.rs:437) is the
clamped round-trip of the note's MIDI number (`clampMidi`). -/
def selectVoice (pitchRate : ℕ → ℕ → ℚ → ℚ → ℚ)
    (registry : String → Option RegisteredPreset)
    (sr tuning : ℚ) (note : SNote) : ActiveVoice :=
  match note.instrument.preset_ref with
  | some preset_name =>
    match registry preset_name with
    | some preset =>
      let midi_note := clampMidi note.midi
      match preset with
      | .sampler sampler =>
        match sampler.findZone midi_note with
        | some zone =>
          .sampler { SamplerVoice.new pitchRate zone midi_note note.velocity
                       tuning sr with release_sample := note.release_sample }
        | none => .oscillator (mkOscVoice sr note)
      | .composite composite =>
        let sub_voices := composite.triggerNote pitchRate midi_note
          note.velocity tuning sr
        if sub_voices.isEmpty then .oscillator (mkOscVoice sr note)
        else .composite sub_voices note.release_sample
    | none => .oscillator (mkOscVoice sr note)
  | none => .oscillator (mkOscVoice sr note)

/-! ## The block render loop (`src/dsp/engine.rs:416-527`)

The loop is modelled generically over the active-voice type `V` with its
four operations (the source's `ActiveVoice` methods, whose sample values
require transcendental oscillator arithmetic); the loop structure itself —
activation under the voice cap, release, per-block mixing, removal of
finished voices — is translated exactly. -/

/-- The operations `ActiveVoice` exposes to the loop (engine.rs:36-83). -/
structure VoiceOps (V : Type) where
  nextSample : V → V × ℚ
  noteOff : V → V
  isFinished : V → Bool
  releaseSample : V → ℕ

/-- `max_voices` as set by `AudioEngine::new` (engine.rs:307). -/
def maxVoicesDefault : ℕ := 64

/-- `block_size` (engine.rs:417). -/
def blockSize : ℕ := 128

/-- The note-activation loop of one block (engine.rs:429-495): consume
pending notes whose start falls before the block end; each creates a voice
only when the active set is below the cap, and is consumed either way. -/
def activate {V : Type} (mk : SNote → V) (maxVoices blockEnd : ℕ) :
    List SNote → List V → List SNote × List V
  | [], voices => ([], voices)
  | n :: rest, voices =>
    if n.start_sample < blockEnd then
      if voices.length < maxVoices then
        activate mk maxVoices blockEnd rest (voices ++ [mk n])
      else
        activate mk maxVoices blockEnd rest voices
    else (n :: rest, voices)

/-- The release loop of one block (engine.rs:498-502). -/
def applyReleases {V : Type} (ops : VoiceOps V) (blockStart blockEnd : ℕ)
    (voices : List V) : List V :=
  voices.map fun v =>
    if blockStart ≤ ops.releaseSample v ∧ ops.releaseSample v < blockEnd then
      ops.noteOff v
    else v

/-- `this_block` consecutive `next_sample` calls on one voice
(engine.rs:508-511). -/
def voiceBlock {V : Type} (ops : VoiceOps V) : ℕ → V → V × List ℚ
  | 0, v => (v, [])
  | k + 1, v =>
    let r := ops.nextSample v
    let rest := voiceBlock ops k r.1
    (rest.1, r.2 :: rest.2)

/-- The mixing loop of one block (engine.rs:505-513): every non-finished
voice adds its samples index-wise into the cleared mixer buffer. -/
def renderVoices {V : Type} (ops : VoiceOps V) (k : ℕ) (voices : List V) :
    List V × List ℚ :=
  voices.foldl
    (fun (acc : List V × List ℚ) v =>
      if ops.isFinished v then (acc.1 ++ [v], acc.2)
      else
        let r := voiceBlock ops k v
        (acc.1 ++ [r.1], List.zipWith (· + ·) acc.2 r.2))
    ([], List.replicate k 0)

/-- State of the render loop between blocks. -/
structure EngineState (V : Type) where
  voices : List V
  pending : List SNote
  blockStart : ℕ
  output : List ℚ

/-- One iteration of the `while block_start < total_samples` loop
(engine.rs:424-525): activate, release, mix (`clip` is the mixer's
tanh soft clip, abstracted), append the block output, drop finished
voices. -/
def blockStep {V : Type} (ops : VoiceOps V) (mk : SNote → V) (clip : ℚ → ℚ)
    (gain : ℚ) (maxVoices total : ℕ) (st : EngineState V) : EngineState V :=
  let blockEnd := min (st.blockStart + blockSize) total
  let thisBlock := blockEnd - st.blockStart
  let act := activate mk maxVoices blockEnd st.pending st.voices
  let released := applyReleases ops st.blockStart blockEnd act.2
  let mixed := renderVoices ops thisBlock released
  { voices := mixed.1.filter (fun v => ¬ ops.isFinished v),
    pending := act.1,
    blockStart := blockEnd,
    output := st.output ++ mixed.2.map (fun s => clip (s * gain)) }

/-- Iterate the block loop `n` times. -/
def renderBlocks {V : Type} (ops : VoiceOps V) (mk : SNote → V)
    (clip : ℚ → ℚ) (gain : ℚ) (maxVoices total : ℕ) :
    ℕ → EngineState V → EngineState V
  | 0, st => st
  | n + 1, st => renderBlocks ops mk clip gain maxVoices total n
      (blockStep ops mk clip gain maxVoices total st)

/-! ## Chorus (`src/dsp/chorus.rs`) -/

/-- `Chorus` (chorus.rs:10); the `f32` buffers and parameters are modelled
over `ℚ`. -/
structure Chorus where
  buffer_l : List ℚ
  buffer_r : List ℚ
  write_pos : ℕ
  sample_rate : ℚ
  phase_l : ℚ
  phase_r : ℚ
  rate : ℚ
  depth : ℚ
  delay : ℚ
  mix : ℚ
  stereo : ℚ
deriving DecidableEq

/-- `Chorus::read_interpolated` (chorus.rs:63). The `usize` subtractions
are guarded in range by their branch conditions; indexing is modelled with
`getD _ 0`. -/
def chorusRead (buffer : List ℚ) (write_pos : ℕ) (delay_samples : ℚ) : ℚ :=
  let buffer_len := buffer.length
  let delay_int := f64ToUsize delay_samples
  let frac := delay_samples - (delay_int : ℚ)
  let read_pos_0 :=
    if write_pos ≥ delay_int then write_pos - delay_int
    else buffer_len - (delay_int - write_pos)
  let read_pos_1 := if read_pos_0 = 0 then buffer_len - 1 else read_pos_0 - 1
  let s0 := buffer.getD read_pos_0 0
  let s1 := buffer.getD read_pos_1 0
  s0 + frac * (s1 - s0)

/-- `Chorus::process` (chorus.rs:89). The LFO value `sin(2π·phase)` is a
transcendental function of the phase, supplied as the parameter `sin2pi`.
Returns the updated state and the `(out_l, out_r)` pair. -/
def Chorus.process (sin2pi : ℚ → ℚ) (c : Chorus) (left right : ℚ) :
    Chorus × ℚ × ℚ :=
  let buffer_len := c.buffer_l.length
  let bl := c.buffer_l.set c.write_pos left
  let br := c.buffer_r.set c.write_pos right
  let lfo_l := sin2pi c.phase_l
  let lfo_r := sin2pi c.phase_r
  let delay_l := (c.delay + c.depth * lfo_l) * c.sample_rate
  let delay_r := (c.delay + c.depth * lfo_r) * c.sample_rate
  let max_delay : ℚ := ((buffer_len - 1 : ℕ) : ℚ)
  let delay_l := max 1 (min delay_l max_delay)
  let delay_r := max 1 (min delay_r max_delay)
  let wet_l := chorusRead bl c.write_pos delay_l
  let wet_r := chorusRead br c.write_pos delay_r
  let write_pos' := (c.write_pos + 1) % buffer_len
  let phase_inc := c.rate / c.sample_rate
  let phase_l' := f64Mod (c.phase_l + phase_inc) 1
  let phase_r' := f64Mod (c.phase_r + phase_inc) 1
  let out_l := left * (1 - c.mix) + wet_l * c.mix
  let out_r := right * (1 - c.mix) + wet_r * c.mix
  ({ c with buffer_l := bl, buffer_r := br, write_pos := write_pos',
            phase_l := phase_l', phase_r := phase_r' },
   out_l, out_r)

/-- `Chorus::process_block` (chorus.rs:129), returning the rewritten
left/right blocks. -/
def Chorus.processBlock (sin2pi : ℚ → ℚ) (c : Chorus) :
    List (ℚ × ℚ) → Chorus × List (ℚ × ℚ)
  | [] => (c, [])
  | p :: rest =>
    let r := c.process sin2pi p.1 p.2
    let rr := r.1.processBlock sin2pi rest
    (rr.1, r.2 :: rr.2)

/-! ## Specification-side definitions

These definitions follow the specification's words (not the source); they
exist to be compared against the source-derived definitions above. -/

/-- Claim C2's words: "the arithmetic mean of the live sub-voices' samples
for that tick" — the sum of the non-finished sub-voices' samples divided by
the number of non-finished sub-voices. -/
def liveMeanSample (voices : List CompositeVoice) : ℚ :=
  let live := voices.filter (fun v => ¬ v.isFinished)
  ((live.map (fun v => (v.nextSample).2)).sum) / (live.length : ℚ)

/-- Claim C4's words: "the value of the last SetProperty event for the
given target (with a parseable numeric value) in event-list order". -/
def lastParsedProp (parse : String → Option ℚ) (target : String)
    (events : List Event) : Option ℚ :=
  (events.filterMap fun e =>
    match e.kind with
    | .setProperty t v => if t = target then parse v else none
    | _ => none).getLast?

/-! ## Concrete inputs used by counterexamples and witnesses -/

/-- A parse function recognising exactly the numeral "160". -/
def parse160 (s : String) : Option ℚ := if s = "160" then some 160 else none

/-- A 1-beat A4 note at beat 1 with the default instrument. -/
def noteAtBeat1 : Event :=
  { time := 1,
    kind := .note "A4" 100 1 InstrumentConfig.default 0 0,
    track_name := none }

/-- Event list for the C1 counterexample: BPM 160, one note at beat 1. -/
def cexC1List : EventList :=
  { events := [ { time := 0, kind := .setProperty "track.beatsPerMinute" "160",
                  track_name := none },
                noteAtBeat1 ],
    total_beats := 2,
    end_mode := .gate }

/-- A 1-beat A4 note at beat 0 with the default instrument. -/
def noteAtBeat0 : Event :=
  { time := 0,
    kind := .note "A4" 100 1 InstrumentConfig.default 0 0,
    track_name := none }

/-- C3 counterexample, Gate variant: one schedulable note, but a beat
cursor (100 beats) far beyond every note end. -/
def cexGateList : EventList :=
  { events := [noteAtBeat0], total_beats := 100, end_mode := .gate }

/-- C3 counterexample, Tail variant: identical except for `end_mode`. -/
def cexTailList : EventList :=
  { events := [noteAtBeat0], total_beats := 100, end_mode := .tail }

/-- A live sampler voice in Sustain over a constant buffer `[1/2, 1/2]`:
its next sample is `1/2`. -/
def cexLiveVoice : SamplerVoice :=
  { position := 0, playback_rate := 1, sample_rate_ratio := 1,
    loop_start := none, loop_end := none, velocity := 1, buffer_len := 2,
    finished := false, released := false, release_sample := 0,
    envelope := { attack := 1/200, decay := 1/10, sustain := 1,
                  release := 1/10, sample_rate := 44100, state := .sustain,
                  level := 1, samples_in_state := 0 },
    buffer := { data := [1/2, 1/2], sample_rate := 44100 } }

/-- The same voice already finished: its next sample is `0`. -/
def cexFinishedVoice : SamplerVoice := { cexLiveVoice with finished := true }

/-- C10 counterexample: a Split composite with explicit split points and no
children. -/
def cexSplitEmpty : CompositeInstrument := .mk .split [] none (some [60])

/-- A trivial pitch-rate function for concrete instantiations. -/
def unitPitchRate : ℕ → ℕ → ℚ → ℚ → ℚ := fun _ _ _ _ => 1

/-- The scheduled note produced for `noteAtBeat0` at 44.1 kHz / 120 BPM. -/
def cexSNote : SNote :=
  { start_sample := 0, release_sample := 22050, midi := 69,
    velocity := 100/127, instrument := InstrumentConfig.default }

/-- Invariant of the envelope state machine: all levels stay in `[0, 1]`
and, in a timed stage, the counter stays below the stage length. -/
def EnvInv (e : Envelope) : Prop :=
  0 ≤ e.level ∧ e.level ≤ 1 ∧ 0 ≤ e.start_level ∧ e.start_level ≤ 1 ∧
  0 ≤ e.sustain ∧ e.sustain ≤ 1 ∧
  ((e.stage = .attack ∨ e.stage = .decay ∨ e.stage = .release) →
    e.stage_samples ≠ 0 → e.stage_counter < e.stage_samples)

/-- A note carrying an unregistered preset reference (for C8's witness). -/
def cexPresetNote : SNote :=
  { start_sample := 0, release_sample := 22050, midi := 69, velocity := 100/127,
    instrument := { InstrumentConfig.default with preset_ref := some "Missing/Preset" } }

/-- Trivial voice operations on `Unit` (for C5's witness). -/
def unitVoiceOps : VoiceOps Unit :=
  { nextSample := fun _ => ((), 0), noteOff := fun _ => (),
    isFinished := fun _ => false, releaseSample := fun _ => 0 }

/-- A small chorus state with zeroed 4-sample buffers and `mix = 0`
(for C9's witness). -/
def cexChorus : Chorus :=
  { buffer_l := [0, 0, 0, 0], buffer_r := [0, 0, 0, 0], write_pos := 0,
    sample_rate := 44100, phase_l := 0, phase_r := 1/4, rate := 3/2,
    depth := 1/500, delay := 3/200, mix := 0, stereo := 1 }

/-! # Theorems -/

/-! ## Helper lemmas -/

theorem ratFloor_eq_floor (q : ℚ) : Rat.floor q = ⌊q⌋ := by
  rw [Rat.floor_def', Rat.floor_def]

theorem f64ToUsize_eq (q : ℚ) : f64ToUsize q = (⌊q⌋).toNat := by
  rw [f64ToUsize, ratFloor_eq_floor]

theorem noteToMidi_A4 : noteToMidi "A4" = some 69 := by decide

/-- The schedule of a single default-instrument A4 note at beat 0 with a
1-beat gate, at 44.1 kHz / 120 BPM defaults. -/
theorem schedule_noteAtBeat0 (tb : ℚ) (em : EndMode) :
    renderSchedule (fun _ => none) 44100 120 440 ⟨[noteAtBeat0], tb, em⟩
      = [{ start_sample := 0, release_sample := 22050, midi := 69,
           velocity := 100/127, instrument := InstrumentConfig.default }] := by
  have hext : extractBpmTuning (fun _ => none) 120 440 [noteAtBeat0]
      = (120, 440) := rfl
  rw [renderSchedule]
  show sortSchedule (scheduleEvents 44100
    (extractBpmTuning (fun _ => none) 120 440 [noteAtBeat0]).1 [noteAtBeat0]) = _
  rw [hext]
  simp only [scheduleEvents, noteAtBeat0, List.filterMap_cons, List.filterMap_nil,
    noteToMidi_A4]
  norm_num [sortSchedule, f64ToUsize_eq]
  rfl

theorem chorus_process_mix (sin2pi : ℚ → ℚ) (c : Chorus) (l r : ℚ) :
    ((Chorus.process sin2pi c l r).1).mix = c.mix := rfl

theorem chorus_process_dry (sin2pi : ℚ → ℚ) (c : Chorus) (l r : ℚ)
    (h : c.mix = 0) : (Chorus.process sin2pi c l r).2 = (l, r) := by
  simp [Chorus.process, h]

theorem tanh_lt_one_real (x : ℝ) : Real.tanh x < 1 := by
  rw [Real.tanh_eq_sinh_div_cosh]
  exact (div_lt_one (Real.cosh_pos x)).mpr (Real.sinh_lt_cosh x)

theorem neg_one_lt_tanh_real (x : ℝ) : -1 < Real.tanh x := by
  have h := tanh_lt_one_real (-x)
  rw [Real.tanh_neg] at h
  linarith

theorem mixer_add_gain (m : Mixer) (i : ℕ) (s : ℚ) :
    (m.add i s).master_gain = m.master_gain := by
  unfold Mixer.add
  split <;> rfl

theorem mixer_runAdds_gain (adds : List (ℕ × ℚ)) (m : Mixer) :
    (m.runAdds adds).master_gain = m.master_gain := by
  induction adds generalizing m with
  | nil => rfl
  | cons p rest ih =>
    show ((m.add p.1 p.2).runAdds rest).master_gain = m.master_gain
    rw [ih, mixer_add_gain]

/-! ## C9 — chorus passthrough at mix 0 -/

/-- C9: with `mix = 0.0`, every `Chorus::process` call returns its input
unchanged — both for a single call and along any input sequence processed
by `process_block` (exactly, in the rational model of `f32` arithmetic). -/
theorem chorus_mix_zero_passthrough (sin2pi : ℚ → ℚ) (c : Chorus)
    (l r : ℚ) (ins : List (ℚ × ℚ)) (h : c.mix = 0) :
    (Chorus.process sin2pi c l r).2 = (l, r) ∧
    (Chorus.processBlock sin2pi c ins).2 = ins := by
  refine ⟨chorus_process_dry sin2pi c l r h, ?_⟩
  induction ins generalizing c with
  | nil => rfl
  | cons p rest ih =>
    simp only [Chorus.processBlock]
    rw [chorus_process_dry sin2pi c p.1 p.2 h,
        ih _ (by rw [chorus_process_mix]; exact h)]

/-- Witness for C9 at a concrete chorus state and inputs. -/
theorem chorus_mix_zero_passthrough_witness :
    (Chorus.process (fun _ => 0) cexChorus (1/2) (-1/3)).2 = (1/2, -1/3) ∧
    (Chorus.processBlock (fun _ => 0) cexChorus [(1, 2)]).2 = [(1, 2)] :=
  chorus_mix_zero_passthrough (fun _ => 0) cexChorus (1/2) (-1/3) [(1, 2)] rfl

/-! ## C7 — mixer output is tanh-clipped and bounded -/

/-- C7: after any `clear` and any sequence of `add` calls, with any master
gain, every sample of `Mixer::output` equals `tanh(sum · master_gain)` of
the accumulated buffer value and lies in `(−1, 1)`; in particular `|s| ≤ 1`.
-/
theorem mixer_output_tanh (g : ℚ) (n : ℕ) (adds : List (ℕ × ℚ)) :
    (Mixer.outputWith (fun q => Real.tanh (q : ℝ))
        (Mixer.runAdds (Mixer.clear { Mixer.new with master_gain := g } n) adds)
      = (Mixer.runAdds (Mixer.clear { Mixer.new with master_gain := g } n)
          adds).buffer.map (fun s => Real.tanh ((s * g : ℚ) : ℝ))) ∧
    ∀ x ∈ Mixer.outputWith (fun q => Real.tanh (q : ℝ))
        (Mixer.runAdds (Mixer.clear { Mixer.new with master_gain := g } n) adds),
      -1 < x ∧ x < 1 ∧ |x| ≤ 1 := by
  have hg : (Mixer.runAdds (Mixer.clear { Mixer.new with master_gain := g } n)
      adds).master_gain = g := by
    rw [mixer_runAdds_gain]; rfl
  constructor
  · unfold Mixer.outputWith
    rw [hg]
  · intro x hx
    unfold Mixer.outputWith at hx
    obtain ⟨s, _, rfl⟩ := List.mem_map.mp hx
    refine ⟨neg_one_lt_tanh_real _, tanh_lt_one_real _, ?_⟩
    exact le_of_lt (abs_lt.mpr ⟨neg_one_lt_tanh_real _, tanh_lt_one_real _⟩)

/-- Witness for C7: one `add` of 100.0 into a 1-sample buffer at the
default gain 0.8 yields `tanh(80)`, strictly inside `(−1, 1)`. -/
theorem mixer_output_tanh_witness :
    -1 < Real.tanh ((80 : ℚ) : ℝ) ∧ Real.tanh ((80 : ℚ) : ℝ) < 1 ∧
    |Real.tanh ((80 : ℚ) : ℝ)| ≤ 1 := by
  refine (mixer_output_tanh (4/5) 1 [(0, 100)]).2 _ ?_
  show Real.tanh ((80 : ℚ) : ℝ) ∈ Mixer.outputWith _ _
  have : Mixer.runAdds (Mixer.clear { Mixer.new with master_gain := 4/5 } 1)
      [(0, 100)] = { master_gain := 4/5, buffer := [100] } := by
    simp [Mixer.runAdds, Mixer.clear, Mixer.add, Mixer.new]
  rw [this]
  show Real.tanh ((80 : ℚ) : ℝ) ∈ [Real.tanh (((100 : ℚ) * (4/5) : ℚ) : ℝ)]
  norm_num

/-! ## C10 — Split composite with empty children -/

/-- C10 counterexample: for the Split composite with explicit split points
and no children, the `usize` expression `children.len() - 1`
(composite.rs:93) underflows — its wrapping value differs from the
mathematical difference (and it would panic in a debug build). -/
theorem composite_split_empty_underflow :
    ((usizeWrapSub cexSplitEmpty.children.length 1 : ℤ)
       ≠ (cexSplitEmpty.children.length : ℤ) - 1) ∧
    cexSplitEmpty.children.length < 1 := by
  constructor
  · norm_num [usizeWrapSub, USIZE, cexSplitEmpty, CompositeInstrument.children]
  · norm_num [cexSplitEmpty, CompositeInstrument.children]

/-- C10 amended: `trigger_note` on a Split composite with explicit split
points and an empty children list still returns an empty voice list under
release-build (wrapping) semantics: the clamped index is out of range, so
`children.get` yields `None`. (The subtraction itself does underflow, and
panics in debug builds.) -/
theorem composite_split_empty_children_total
    (pitchRate : ℕ → ℕ → ℚ → ℚ → ℚ) (midi : ℕ) (velocity tuning sr : ℚ)
    (ml : Option (List ℚ)) (sps : List ℕ) :
    (CompositeInstrument.mk .split [] ml (some sps)).triggerNote
      pitchRate midi velocity tuning sr = [] := by
  simp [CompositeInstrument.triggerNote]

/-! ## C8 — oscillator fallback for unresolved presets -/

/-- C8: when a scheduled note's `preset_ref` is absent from the registry,
or resolves to a sampler with no zone covering the note's MIDI number,
`render` activates an oscillator voice built from the note's
`InstrumentConfig` (no error, no dropped note). -/
theorem select_voice_fallback (pitchRate : ℕ → ℕ → ℚ → ℚ → ℚ)
    (registry : String → Option RegisteredPreset) (sr tuning : ℚ)
    (note : SNote) (name : String)
    (href : note.instrument.preset_ref = some name)
    (hmiss : registry name = none ∨
      ∃ s, registry name = some (.sampler s) ∧
        s.findZone (clampMidi note.midi) = none) :
    selectVoice pitchRate registry sr tuning note
      = .oscillator (mkOscVoice sr note) := by
  rcases hmiss with h | ⟨s, hs, hz⟩
  · simp [selectVoice, href, h]
  · simp [selectVoice, href, hs, hz]

/-- Witness for C8 at a concrete note with an unregistered preset name. -/
theorem select_voice_fallback_witness :
    cexPresetNote.instrument.preset_ref = some "Missing/Preset" ∧
    selectVoice unitPitchRate (fun _ => none) 44100 440 cexPresetNote
      = .oscillator (mkOscVoice 44100 cexPresetNote) :=
  ⟨rfl, select_voice_fallback unitPitchRate (fun _ => none) 44100 440
    cexPresetNote "Missing/Preset" rfl (Or.inl rfl)⟩

/-! ## C2 — composite voice group output -/

theorem compositeFold_spec (vs : List CompositeVoice)
    (acc : List CompositeVoice) (s : ℚ) :
    vs.foldl (fun (acc : List CompositeVoice × ℚ) v =>
        let r := v.nextSample
        (acc.1 ++ [r.1], acc.2 + r.2)) (acc, s)
      = (acc ++ vs.map (fun v => (v.nextSample).1),
         s + (vs.map (fun v => (v.nextSample).2)).sum) := by
  induction vs generalizing acc s with
  | nil => simp
  | cons v rest ih =>
    simp only [List.foldl_cons, List.map_cons, List.sum_cons, ih]
    simp [List.append_assoc, add_assoc]

theorem compositeVoice_finished_sample (v : CompositeVoice)
    (h : v.isFinished = true) : v.nextSample = (v, 0) := by
  cases v with
  | sampler sv =>
    simp only [CompositeVoice.isFinished, SamplerVoice.isFinished] at h
    simp [CompositeVoice.nextSample, SamplerVoice.nextSample, h]

/-- C2 counterexample: a composite group of two sub-voices, one finished
and one live producing `1/2`, yields `(0 + 1/2)/2 = 1/4` from the source's
`next_sample`, while the arithmetic mean of the live sub-voices is `1/2`. -/
theorem composite_mean_counterexample :
    (compositeNextSample [.sampler cexFinishedVoice, .sampler cexLiveVoice]).2
      = 1/4 ∧
    liveMeanSample [.sampler cexFinishedVoice, .sampler cexLiveVoice] = 1/2 ∧
    (1/4 : ℚ) ≠ 1/2 := by
  have hfin : (CompositeVoice.sampler cexFinishedVoice).nextSample.2 = 0 := by
    simp [CompositeVoice.nextSample, SamplerVoice.nextSample, cexFinishedVoice]
  have hlive : (CompositeVoice.sampler cexLiveVoice).nextSample.2 = 1/2 := by
    simp only [CompositeVoice.nextSample]
    rw [cexLiveVoice, SamplerVoice.nextSample]
    norm_num [SampleBuffer.readInterpolated, f64ToUsize_eq, SamplerEnvelope.nextSample]
  refine ⟨?_, ?_, by norm_num⟩
  · unfold compositeNextSample
    rw [compositeFold_spec]
    simp only [List.nil_append, List.map_cons, List.map_nil, List.sum_cons,
      List.sum_nil, hfin, hlive, List.length_cons, List.length_nil]
    norm_num
  · unfold liveMeanSample
    have hfinb : (CompositeVoice.sampler cexFinishedVoice).isFinished = true := rfl
    have hliveb : (CompositeVoice.sampler cexLiveVoice).isFinished = false := rfl
    simp only [List.filter, hfinb, hliveb, Bool.not_true, Bool.not_false]
    simp [hlive]

/-- C2 amended: one `next_sample` call on a composite voice group returns
the sum of all sub-voice samples divided by the total number of sub-voices
when there is more than one (the sample unchanged for a single sub-voice);
finished sub-voices contribute 0 to the sum but still count in the divisor.
-/
theorem composite_next_sample_mean (vs : List CompositeVoice) :
    ((compositeNextSample vs).2
        = if 1 < vs.length
          then ((vs.map (fun v => (v.nextSample).2)).sum) / (vs.length : ℚ)
          else ((vs.map (fun v => (v.nextSample).2)).sum)) ∧
    (∀ v ∈ vs, v.isFinished = true → (v.nextSample).2 = 0) := by
  constructor
  · unfold compositeNextSample
    rw [compositeFold_spec]
    simp [gt_iff_lt]
  · intro v _ hfin
    rw [compositeVoice_finished_sample v hfin]

/-- Witness for C2's amended theorem at the concrete two-voice group. -/
theorem composite_next_sample_mean_witness :
    (CompositeVoice.sampler cexFinishedVoice).nextSample.2 = 0 :=
  (composite_next_sample_mean
      [.sampler cexFinishedVoice, .sampler cexLiveVoice]).2
    (.sampler cexFinishedVoice) (by simp) rfl

/-! ## C3 — Gate vs Tail output length -/

theorem foldr_max_le_foldr_max {α : Type} (f g : α → ℕ) (l : List α)
    (h : ∀ n ∈ l, f n ≤ g n) :
    (l.map f).foldr max 0 ≤ (l.map g).foldr max 0 := by
  induction l with
  | nil => simp
  | cons a rest ih =>
    simp only [List.map_cons, List.foldr_cons]
    have h1 := h a (by simp)
    have h2 := ih (fun n hn => h n (by simp [hn]))
    omega

theorem foldr_max_lt_foldr_max {α : Type} (f g : α → ℕ) (l : List α)
    (hne : l ≠ []) (h : ∀ n ∈ l, f n < g n) :
    (l.map f).foldr max 0 < (l.map g).foldr max 0 := by
  induction l with
  | nil => exact absurd rfl hne
  | cons a rest ih =>
    have h1 := h a (by simp)
    cases rest with
    | nil => simpa using h1
    | cons b rest2 =>
      have h2 := ih (by simp) (fun n hn => h n (by simp [hn]))
      simp only [List.map_cons, List.foldr_cons] at h2 ⊢
      omega

theorem effectsTail_pos (sr : ℚ) (hsr : 2 ≤ sr) : 1 ≤ effectsTailSamples sr := by
  unfold effectsTailSamples f64ToUsize
  rw [ratFloor_eq_floor]
  have : (1 : ℤ) ≤ ⌊1/2 * sr⌋ := by
    rw [Int.le_floor]
    push_cast
    linarith
  omega

/-- C3 counterexample: two event lists identical except for `end_mode`,
both containing one schedulable note, for which Tail and Gate render
lengths are equal (the beat-cursor floor dominates both), so `len(Tail) >
len(Gate)` fails. -/
theorem gate_tail_counterexample :
    cexGateList.events = cexTailList.events ∧
    cexGateList.total_beats = cexTailList.total_beats ∧
    cexGateList.end_mode = .gate ∧ cexTailList.end_mode = .tail ∧
    renderSchedule (fun _ => none) 44100 120 440 cexGateList ≠ [] ∧
    ¬ (renderLen (fun _ => none) 44100 120 440 cexTailList
        > renderLen (fun _ => none) 44100 120 440 cexGateList) := by
  have hsched := schedule_noteAtBeat0 100 .gate
  have hschedT := schedule_noteAtBeat0 100 .tail
  have hG : renderLen (fun _ => none) 44100 120 440 cexGateList = 2205000 := by
    show totalSamples 44100 .gate (cursorSamples 44100 120 100)
        (renderSchedule (fun _ => none) 44100 120 440 ⟨[noteAtBeat0], 100, .gate⟩)
      = 2205000
    rw [hsched]
    norm_num [totalSamples, cursorSamples, f64ToUsize_eq]
    rfl
  have hT : renderLen (fun _ => none) 44100 120 440 cexTailList = 2205000 := by
    show totalSamples 44100 .tail (cursorSamples 44100 120 100)
        (renderSchedule (fun _ => none) 44100 120 440 ⟨[noteAtBeat0], 100, .tail⟩)
      = 2205000
    rw [hschedT]
    norm_num [totalSamples, cursorSamples, noteReleaseEnd, effectsTailSamples,
      InstrumentConfig.default, defaultRelease, f64ToUsize_eq]
    rfl
  refine ⟨rfl, rfl, rfl, rfl, ?_, ?_⟩
  · show renderSchedule (fun _ => none) 44100 120 440
      ⟨[noteAtBeat0], 100, .gate⟩ ≠ []
    rw [hsched]
    simp
  · rw [hG, hT]
    simp

/-- C3 amended: `len(render Tail) > len(render Gate)` for identical note
content holds whenever the beat-cursor floor does not dominate the
note-derived Gate length (and the sample rate is at least 2, so the fixed
0.5 s effects tail is at least one sample); the cursor floor can otherwise
make the two lengths equal. -/
theorem gate_tail_render_len (parse : String → Option ℚ) (sr dB dT : ℚ)
    (events : List Event) (total_beats : ℚ) (hsr : 2 ≤ sr)
    (hne : renderSchedule parse sr dB dT ⟨events, total_beats, .gate⟩ ≠ [])
    (hcur : cursorSamples sr (extractBpmTuning parse dB dT events).1 total_beats
      ≤ ((renderSchedule parse sr dB dT ⟨events, total_beats, .gate⟩).map
          (·.release_sample)).foldr max 0) :
    renderLen parse sr dB dT ⟨events, total_beats, .tail⟩
      > renderLen parse sr dB dT ⟨events, total_beats, .gate⟩ := by
  have hsched : renderSchedule parse sr dB dT ⟨events, total_beats, .tail⟩
      = renderSchedule parse sr dB dT ⟨events, total_beats, .gate⟩ := rfl
  unfold renderLen totalSamples
  simp only [hsched]
  set sched := renderSchedule parse sr dB dT ⟨events, total_beats, .gate⟩
  set cursor := cursorSamples sr (extractBpmTuning parse dB dT events).1 total_beats
  have hlt : (sched.map (·.release_sample)).foldr max 0
      < (sched.map (fun n => noteReleaseEnd sr n + effectsTailSamples sr)).foldr max 0 := by
    refine foldr_max_lt_foldr_max _ _ sched hne (fun n _ => ?_)
    have h1 : n.release_sample ≤ noteReleaseEnd sr n := Nat.le_add_right _ _
    have h2 := effectsTail_pos sr hsr
    omega
  omega

/-- Witness for C3's amended theorem: one note at beat 0 with a 1-beat
cursor, so the note-derived length (22050) dominates the cursor. -/
theorem gate_tail_render_len_witness :
    renderLen (fun _ => none) 44100 120 440 ⟨[noteAtBeat0], 1, .tail⟩
      > renderLen (fun _ => none) 44100 120 440 ⟨[noteAtBeat0], 1, .gate⟩ :=
  gate_tail_render_len (fun _ => none) 44100 120 440 [noteAtBeat0] 1
    (by norm_num)
    (by rw [schedule_noteAtBeat0]; simp)
    (by rw [schedule_noteAtBeat0]
        norm_num [cursorSamples, f64ToUsize_eq, extractBpmTuning, applyProp,
          noteAtBeat0])

/-! ## C1 — scheduled-note construction -/

/-- C1 counterexample: at 160 BPM and 44.1 kHz a note at beat 1 starts at
sample `trunc(16537.5) = 16537`, while the claimed `round(·)` gives 16538:
the `as usize` conversion truncates, it does not round. -/
theorem schedule_round_counterexample :
    (renderSchedule parse160 44100 120 440 cexC1List).map (·.start_sample)
      = [16537] ∧
    f64Round (1 * 60 / 160 * 44100) = 16538 ∧
    (16537 : ℕ) ≠ 16538 := by
  refine ⟨?_, ?_, by norm_num⟩
  · have hext : extractBpmTuning parse160 120 440 cexC1List.events
        = (160, 440) := rfl
    rw [renderSchedule]
    show (sortSchedule (scheduleEvents 44100
      (extractBpmTuning parse160 120 440 cexC1List.events).1 cexC1List.events)).map
        (·.start_sample) = [16537]
    rw [hext]
    simp only [scheduleEvents, cexC1List, noteAtBeat1, List.filterMap_cons,
      List.filterMap_nil, noteToMidi_A4]
    norm_num [sortSchedule, f64ToUsize_eq]
    rfl
  · rw [f64Round, ratFloor_eq_floor]
    norm_num

/-- C1 amended: every scheduled note of `render` comes from a `Note` event
with a parseable pitch and carries `start_sample = trunc(time·60/bpm·sr)`
(truncation, not rounding), `release_sample = start_sample +
trunc(gate·60/bpm·sr)`, `velocity = velocity/127`, the event's instrument,
and a frequency of `tuningPitch·2^((midi−69)/12)`; the resulting list is
sorted by start sample. -/
theorem render_schedule_spec (parse : String → Option ℚ) (sr dB dT : ℚ)
    (evl : EventList) :
    (∀ e ∈ evl.events, ∀ (pitch : String) (vel gate : ℚ)
        (instr : InstrumentConfig) (s0 s1 : ℕ) (midi : ℤ),
      e.kind = .note pitch vel gate instr s0 s1 →
      noteToMidi pitch = some midi →
      ({ start_sample := f64ToUsize (e.time * 60
            / (extractBpmTuning parse dB dT evl.events).1 * sr),
         release_sample := f64ToUsize (e.time * 60
            / (extractBpmTuning parse dB dT evl.events).1 * sr)
            + f64ToUsize (gate * 60
                / (extractBpmTuning parse dB dT evl.events).1 * sr),
         midi := midi, velocity := vel / 127, instrument := instr } : SNote)
        ∈ renderSchedule parse sr dB dT evl) ∧
    (∀ n ∈ renderSchedule parse sr dB dT evl,
      ∃ e ∈ evl.events, ∃ pitch vel gate instr s0 s1 midi,
        e.kind = .note pitch vel gate instr s0 s1 ∧
        noteToMidi pitch = some midi ∧
        n.midi = midi ∧
        n.start_sample
          = f64ToUsize (e.time * 60 / (extractBpmTuning parse dB dT evl.events).1 * sr) ∧
        n.release_sample
          = n.start_sample
            + f64ToUsize (gate * 60 / (extractBpmTuning parse dB dT evl.events).1 * sr) ∧
        n.velocity = vel / 127 ∧
        n.instrument = instr ∧
        (∀ f : ℝ, MidiFreq n.midi ((extractBpmTuning parse dB dT evl.events).2 : ℝ) f ↔
          f = ((extractBpmTuning parse dB dT evl.events).2 : ℝ)
              * (2 : ℝ) ^ (((n.midi : ℝ) - 69) / 12))) ∧
    (renderSchedule parse sr dB dT evl).Pairwise
      (fun a b => a.start_sample ≤ b.start_sample) := by
  refine ⟨?_, ?_, ?_⟩
  · intro e he pitch vel gate instr s0 s1 midi hkind hmid
    rw [renderSchedule, sortSchedule, List.mem_mergeSort]
    refine List.mem_filterMap.mpr ⟨e, he, ?_⟩
    obtain ⟨time, kind, tname⟩ := e
    dsimp only at hkind ⊢
    subst hkind
    dsimp only
    rw [hmid]
  · intro n hn
    rw [renderSchedule, sortSchedule, List.mem_mergeSort] at hn
    obtain ⟨e, he, hfe⟩ := List.mem_filterMap.mp hn
    refine ⟨e, he, ?_⟩
    obtain ⟨time, kind, tname⟩ := e
    cases kind with
    | note pitch vel gate instr s0 s1 =>
      dsimp only at hfe
      cases hmid : noteToMidi pitch with
      | none => rw [hmid] at hfe; exact absurd hfe (by simp)
      | some midi =>
        rw [hmid] at hfe
        simp only [Option.some.injEq] at hfe
        refine ⟨pitch, vel, gate, instr, s0, s1, midi, rfl, hmid, ?_⟩
        subst hfe
        exact ⟨rfl, rfl, rfl, rfl, rfl, fun f => Iff.rfl⟩
    | trackStart t v p a => simp at hfe
    | setProperty t v => simp at hfe
    | presetRef nm => simp at hfe
  · rw [renderSchedule, sortSchedule]
    have hp := @List.sorted_mergeSort SNote
      (fun a b => decide (a.start_sample ≤ b.start_sample))
      (fun a b c hab hbc => by
        simp only [decide_eq_true_iff] at hab hbc ⊢; omega)
      (fun a b => by
        simp only [Bool.or_eq_true, decide_eq_true_iff]; omega)
      (scheduleEvents sr (extractBpmTuning parse dB dT evl.events).1 evl.events)
    exact hp.imp (fun h => by simpa using h)

/-- Witness for C1's amended theorem at the single-note song: the parseable
A4 note event produces its scheduled note, that note satisfies every
clause, and the schedule is sorted. -/
theorem render_schedule_spec_witness :
    ({ start_sample := f64ToUsize (noteAtBeat0.time * 60
          / (extractBpmTuning (fun _ => none) 120 440 [noteAtBeat0]).1 * 44100),
       release_sample := f64ToUsize (noteAtBeat0.time * 60
          / (extractBpmTuning (fun _ => none) 120 440 [noteAtBeat0]).1 * 44100)
          + f64ToUsize ((1 : ℚ) * 60
              / (extractBpmTuning (fun _ => none) 120 440 [noteAtBeat0]).1 * 44100),
       midi := 69, velocity := 100 / 127,
       instrument := InstrumentConfig.default } : SNote)
      ∈ renderSchedule (fun _ => none) 44100 120 440
          ⟨[noteAtBeat0], 1, .gate⟩ ∧
    (∃ e ∈ [noteAtBeat0], ∃ pitch vel gate instr s0 s1 midi,
        e.kind = .note pitch vel gate instr s0 s1 ∧
        noteToMidi pitch = some midi ∧
        cexSNote.midi = midi ∧
        cexSNote.start_sample
          = f64ToUsize (e.time * 60
              / (extractBpmTuning (fun _ => none) 120 440 [noteAtBeat0]).1 * 44100) ∧
        cexSNote.release_sample
          = cexSNote.start_sample
            + f64ToUsize (gate * 60
                / (extractBpmTuning (fun _ => none) 120 440 [noteAtBeat0]).1 * 44100) ∧
        cexSNote.velocity = vel / 127 ∧
        cexSNote.instrument = instr ∧
        (∀ f : ℝ, MidiFreq cexSNote.midi
            ((extractBpmTuning (fun _ => none) 120 440 [noteAtBeat0]).2 : ℝ) f ↔
          f = ((extractBpmTuning (fun _ => none) 120 440 [noteAtBeat0]).2 : ℝ)
              * (2 : ℝ) ^ (((cexSNote.midi : ℝ) - 69) / 12))) ∧
    (renderSchedule (fun _ => none) 44100 120 440
        ⟨[noteAtBeat0], 1, .gate⟩).Pairwise
      (fun a b => a.start_sample ≤ b.start_sample) := by
  have h := render_schedule_spec (fun _ => none) 44100 120 440
    ⟨[noteAtBeat0], 1, .gate⟩
  refine ⟨h.1 noteAtBeat0 (by simp) "A4" 100 1 InstrumentConfig.default 0 0 69
      rfl noteToMidi_A4,
    h.2.1 cexSNote ?_, h.2.2⟩
  rw [schedule_noteAtBeat0]
  simp [cexSNote]

/-! ## C4 — last SetProperty wins -/

theorem getLast?_cons_getD {α : Type} (a d : α) (l : List α) :
    ((a :: l).getLast?).getD d = (l.getLast?).getD a := by
  cases l with
  | nil => rfl
  | cons b l2 =>
    cases hx : (b :: l2).getLast? with
    | none => exact absurd hx (by simp)
    | some x => simp [List.getLast?_cons_cons, hx]

/-- C4: the BPM and tuning used by `render` are, for each property, the
value of the last `SetProperty` event with that target and a parseable
numeric value, in event-list order (the events' `time` fields play no
role), falling back to the engine defaults; these govern the whole
schedule. -/
theorem extract_last_wins (parse : String → Option ℚ) (dB dT : ℚ)
    (events : List Event) :
    (extractBpmTuning parse dB dT events).1
      = (lastParsedProp parse "track.beatsPerMinute" events).getD dB ∧
    (extractBpmTuning parse dB dT events).2
      = (lastParsedProp parse "track.tuningPitch" events).getD dT ∧
    (∀ (sr : ℚ) (evl : EventList),
      renderSchedule parse sr dB dT evl
        = sortSchedule (scheduleEvents sr
            (extractBpmTuning parse dB dT evl.events).1 evl.events)) := by
  have aux : ∀ (events : List Event) (dB dT : ℚ),
      extractBpmTuning parse dB dT events
        = ((lastParsedProp parse "track.beatsPerMinute" events).getD dB,
           (lastParsedProp parse "track.tuningPitch" events).getD dT) := by
    intro events
    induction events with
    | nil => intro dB dT; rfl
    | cons e rest ih =>
      intro dB dT
      have hstep : extractBpmTuning parse dB dT (e :: rest)
          = extractBpmTuning parse (applyProp parse (dB, dT) e).1
              (applyProp parse (dB, dT) e).2 rest := by
        simp [extractBpmTuning, List.foldl_cons]
      rw [hstep, ih]
      obtain ⟨time, kind, tname⟩ := e
      cases kind with
      | note p v g i s0 s1 => rfl
      | trackStart t v p a => rfl
      | presetRef nm => rfl
      | setProperty t v =>
        by_cases hb : t = "track.beatsPerMinute"
        · subst hb
          have hne : ¬ ("track.beatsPerMinute" : String) = "track.tuningPitch" := by
            decide
          cases hp : parse v <;>
            simp [applyProp, lastParsedProp, hp, hne, getLast?_cons_getD]
        · by_cases ht : t = "track.tuningPitch"
          · subst ht
            cases hp : parse v <;>
              simp [applyProp, lastParsedProp, hp, hb, getLast?_cons_getD]
          · simp [applyProp, lastParsedProp, hb, ht]
  refine ⟨?_, ?_, fun sr evl => rfl⟩
  · rw [aux]
  · rw [aux]

/-! ## C6 — envelope bounds -/

theorem envInv_gateOn (e : Envelope) (h : EnvInv e) : EnvInv e.gateOn := by
  obtain ⟨h1, h2, h3, h4, h5, h6, _⟩ := h
  exact ⟨h1, h2, h1, h2, h5, h6, fun _ hs => Nat.pos_of_ne_zero hs⟩

theorem envInv_gateOff (e : Envelope) (h : EnvInv e) : EnvInv e.gateOff := by
  obtain ⟨h1, h2, h3, h4, h5, h6, h7⟩ := h
  unfold Envelope.gateOff
  split
  · exact ⟨h1, h2, h3, h4, h5, h6, h7⟩
  · exact ⟨h1, h2, h1, h2, h5, h6, fun _ hs => Nat.pos_of_ne_zero hs⟩

theorem envInv_nextSample (e : Envelope) (h : EnvInv e) :
    EnvInv (e.nextSample).1 ∧ 0 ≤ (e.nextSample).2 ∧ (e.nextSample).2 ≤ 1 := by
  suffices hInv : EnvInv (e.nextSample).1 by
    exact ⟨hInv, hInv.1, hInv.2.1⟩
  obtain ⟨h1, h2, h3, h4, h5, h6, h7⟩ := h
  unfold Envelope.nextSample
  cases hst : e.stage with
  | idle =>
    exact ⟨le_refl 0, by norm_num, h3, h4, h5, h6,
      fun hor => absurd hor (by simp [hst])⟩
  | attack =>
    by_cases hz : e.stage_samples = 0
    · simp only [hz, if_true]
      exact ⟨by simp [Envelope.enterDecay], by simp [Envelope.enterDecay],
        h3, h4, h5, h6, fun _ hs => Nat.pos_of_ne_zero hs⟩
    · simp only [hz, if_false]
      have hc : e.stage_counter < e.stage_samples := h7 (Or.inl hst) hz
      have ht0 : 0 ≤ (e.stage_counter : ℚ) / (e.stage_samples : ℚ) :=
        div_nonneg (Nat.cast_nonneg _) (Nat.cast_nonneg _)
      have ht1 : (e.stage_counter : ℚ) / (e.stage_samples : ℚ) < 1 :=
        (div_lt_one (by exact_mod_cast Nat.pos_of_ne_zero hz)).mpr
          (by exact_mod_cast hc)
      split
      · exact ⟨by simp [Envelope.enterDecay], by simp [Envelope.enterDecay],
          h3, h4, h5, h6, fun _ hs => Nat.pos_of_ne_zero hs⟩
      · rename_i hlt
        exact ⟨by nlinarith, by nlinarith, h3, h4, h5, h6,
          fun _ _ => show e.stage_counter + 1 < e.stage_samples by omega⟩
  | decay =>
    by_cases hz : e.stage_samples = 0
    · simp only [hz, if_true]
      exact ⟨h5, h6, h3, h4, h5, h6, fun hor => absurd hor (by simp)⟩
    · simp only [hz, if_false]
      have hc : e.stage_counter < e.stage_samples := h7 (Or.inr (Or.inl hst)) hz
      have ht0 : 0 ≤ (e.stage_counter : ℚ) / (e.stage_samples : ℚ) :=
        div_nonneg (Nat.cast_nonneg _) (Nat.cast_nonneg _)
      have ht1 : (e.stage_counter : ℚ) / (e.stage_samples : ℚ) < 1 :=
        (div_lt_one (by exact_mod_cast Nat.pos_of_ne_zero hz)).mpr
          (by exact_mod_cast hc)
      split
      · exact ⟨h5, h6, h3, h4, h5, h6, fun hor => absurd hor (by simp)⟩
      · rename_i hlt
        exact ⟨by nlinarith, by nlinarith, h3, h4, h5, h6,
          fun _ _ => show e.stage_counter + 1 < e.stage_samples by omega⟩
  | sustain =>
    exact ⟨h5, h6, h3, h4, h5, h6, fun hor => absurd hor (by simp [hst])⟩
  | release =>
    by_cases hz : e.stage_samples = 0
    · simp only [hz, if_true]
      exact ⟨le_refl 0, by norm_num, h3, h4, h5, h6,
        fun hor => absurd hor (by simp)⟩
    · simp only [hz, if_false]
      have hc : e.stage_counter < e.stage_samples := h7 (Or.inr (Or.inr hst)) hz
      have ht0 : 0 ≤ (e.stage_counter : ℚ) / (e.stage_samples : ℚ) :=
        div_nonneg (Nat.cast_nonneg _) (Nat.cast_nonneg _)
      have ht1 : (e.stage_counter : ℚ) / (e.stage_samples : ℚ) < 1 :=
        (div_lt_one (by exact_mod_cast Nat.pos_of_ne_zero hz)).mpr
          (by exact_mod_cast hc)
      split
      · exact ⟨le_refl 0, by norm_num, h3, h4, h5, h6,
          fun hor => absurd hor (by simp)⟩
      · rename_i hlt
        exact ⟨by nlinarith, by nlinarith, h3, h4, h5, h6,
          fun _ _ => show e.stage_counter + 1 < e.stage_samples by omega⟩

theorem envInv_run (ops : List EnvOp) : ∀ (e : Envelope), EnvInv e →
    EnvInv (e.run ops).1 ∧ ∀ v ∈ (e.run ops).2, 0 ≤ v ∧ v ≤ 1 := by
  induction ops with
  | nil => exact fun e h => ⟨h, by simp [Envelope.run]⟩
  | cons op ops ih =>
    intro e h
    cases op with
    | gateOn =>
      have := ih e.gateOn (envInv_gateOn e h)
      exact ⟨this.1, by simpa [Envelope.run, Envelope.step] using this.2⟩
    | gateOff =>
      have := ih e.gateOff (envInv_gateOff e h)
      exact ⟨this.1, by simpa [Envelope.run, Envelope.step] using this.2⟩
    | next =>
      obtain ⟨hInv, hlo, hhi⟩ := envInv_nextSample e h
      have := ih (e.nextSample).1 hInv
      refine ⟨this.1, ?_⟩
      intro v hv
      simp only [Envelope.run, Envelope.step, Option.toList_some,
        List.cons_append, List.nil_append, List.mem_cons] at hv
      rcases hv with rfl | hv
      · exact ⟨hlo, hhi⟩
      · exact this.2 v hv

/-- C6: starting from `Envelope::new` with any caller-set ADSR parameters
whose sustain lies in `[0,1]` and whose times are non-negative, every value
`next_sample` returns across any sequence of `gate_on` / `gate_off` /
`next_sample` calls lies in `[0,1]`, and `is_finished()` holds exactly in
the Idle stage. -/
theorem envelope_output_bounds (sr a d s r : ℚ) (ops : List EnvOp)
    (hs0 : 0 ≤ s) (hs1 : s ≤ 1) (ha : 0 ≤ a) (hd : 0 ≤ d) (hr : 0 ≤ r) :
    (∀ v ∈ ((Envelope.withParams sr a d s r).run ops).2, 0 ≤ v ∧ v ≤ 1) ∧
    (∀ e : Envelope, e.isFinished = true ↔ e.stage = .idle) := by
  constructor
  · have hinv : EnvInv (Envelope.withParams sr a d s r) := by
      refine ⟨le_refl 0, by norm_num [Envelope.withParams, Envelope.new],
        le_refl 0, by norm_num [Envelope.withParams, Envelope.new], hs0, hs1, ?_⟩
      intro hor _
      exact absurd hor (by simp [Envelope.withParams, Envelope.new])
    exact (envInv_run ops _ hinv).2
  · intro e
    simp [Envelope.isFinished]

/-- Witness for C6 at concrete parameters and a gate-on/advance sequence. -/
theorem envelope_output_bounds_witness :
    (0 : ℚ) ≤ 7/10 ∧ (7/10 : ℚ) ≤ 1 ∧
    (∀ v ∈ ((Envelope.withParams 44100 (1/100) (1/10) (7/10) (3/10)).run
        [.gateOn, .next, .gateOff, .next]).2, 0 ≤ v ∧ v ≤ 1) :=
  ⟨by norm_num, by norm_num,
    (envelope_output_bounds 44100 (1/100) (1/10) (7/10) (3/10)
      [.gateOn, .next, .gateOff, .next] (by norm_num) (by norm_num)
      (by norm_num) (by norm_num) (by norm_num)).1⟩

/-! ## C5 — voice cap -/

theorem activate_length_le {V : Type} (mk : SNote → V) (maxV be : ℕ)
    (notes : List SNote) : ∀ (voices : List V), voices.length ≤ maxV →
    ((activate mk maxV be notes voices).2).length ≤ maxV := by
  induction notes with
  | nil => intro voices h; simpa [activate] using h
  | cons n rest ih =>
    intro voices h
    rw [activate]
    split
    · split
      · exact ih _ (by simp; omega)
      · exact ih _ h
    · simpa using h

theorem renderVoices_fold_length {V : Type} (ops : VoiceOps V) (k : ℕ)
    (voices : List V) : ∀ (acc : List V) (buf : List ℚ),
    ((voices.foldl (fun (acc : List V × List ℚ) v =>
        if ops.isFinished v then (acc.1 ++ [v], acc.2)
        else
          let r := voiceBlock ops k v
          (acc.1 ++ [r.1], List.zipWith (· + ·) acc.2 r.2)) (acc, buf)).1).length
      = acc.length + voices.length := by
  induction voices with
  | nil => intros; simp
  | cons v rest ih =>
    intro acc buf
    simp only [List.foldl_cons]
    split
    · rw [ih]; simp; omega
    · rw [ih]; simp; omega

theorem renderVoices_length {V : Type} (ops : VoiceOps V) (k : ℕ)
    (voices : List V) :
    ((renderVoices ops k voices).1).length = voices.length := by
  unfold renderVoices
  rw [renderVoices_fold_length]
  simp

theorem blockStep_length_le {V : Type} (ops : VoiceOps V) (mk : SNote → V)
    (clip : ℚ → ℚ) (gain : ℚ) (maxV total : ℕ) (st : EngineState V)
    (h : st.voices.length ≤ maxV) :
    ((blockStep ops mk clip gain maxV total st).voices).length ≤ maxV := by
  have h1 : ((activate mk maxV (min (st.blockStart + blockSize) total)
      st.pending st.voices).2).length ≤ maxV :=
    activate_length_le mk maxV _ st.pending st.voices h
  have h3 : ((renderVoices ops ((min (st.blockStart + blockSize) total) - st.blockStart)
      (applyReleases ops st.blockStart (min (st.blockStart + blockSize) total)
        ((activate mk maxV (min (st.blockStart + blockSize) total)
          st.pending st.voices).2))).1).length ≤ maxV := by
    rw [renderVoices_length]
    simpa [applyReleases] using h1
  exact le_trans (List.length_filter_le _ _) h3

theorem renderBlocks_length_le {V : Type} (ops : VoiceOps V) (mk : SNote → V)
    (clip : ℚ → ℚ) (gain : ℚ) (maxV total : ℕ) (k : ℕ) :
    ∀ (st : EngineState V), st.voices.length ≤ maxV →
    ((renderBlocks ops mk clip gain maxV total k st).voices).length ≤ maxV := by
  induction k with
  | zero => exact fun st h => h
  | succ k ih =>
    intro st h
    exact ih _ (blockStep_length_le ops mk clip gain maxV total st h)

/-- C5: throughout the block render loop the active voice set never exceeds
`max_voices` (64), and a scheduled note that starts while the set is at the
ceiling is dropped: the activation loop continues exactly as if that note
were absent, so no voice is ever created for it (then or later). -/
theorem voice_cap_invariant {V : Type} (ops : VoiceOps V) (mk : SNote → V)
    (clip : ℚ → ℚ) (gain : ℚ) (total k : ℕ) (st : EngineState V)
    (h : st.voices.length ≤ maxVoicesDefault) :
    ((renderBlocks ops mk clip gain maxVoicesDefault total k st).voices).length
      ≤ maxVoicesDefault ∧
    (∀ (blockEnd : ℕ) (n : SNote) (rest : List SNote) (voices : List V),
      maxVoicesDefault ≤ voices.length → n.start_sample < blockEnd →
      activate mk maxVoicesDefault blockEnd (n :: rest) voices
        = activate mk maxVoicesDefault blockEnd rest voices) := by
  refine ⟨renderBlocks_length_le ops mk clip gain maxVoicesDefault total k st h,
    ?_⟩
  intro blockEnd n rest voices hfull hstart
  rw [activate]
  rw [if_pos hstart, if_neg (by omega)]

/-- Witness for C5 with trivial `Unit` voices: two blocks from the empty
state stay within the cap, and at a full 64-voice set an in-block note is
skipped. -/
theorem voice_cap_invariant_witness :
    ((renderBlocks unitVoiceOps (fun _ => ()) id 1 maxVoicesDefault 256 2
        ⟨[], [], 0, []⟩).voices).length ≤ maxVoicesDefault ∧
    activate (fun _ => ()) maxVoicesDefault 1 [cexSNote]
        (List.replicate 64 ())
      = activate (fun _ => ()) maxVoicesDefault 1 []
        (List.replicate 64 ()) := by
  have h := voice_cap_invariant unitVoiceOps (fun _ => ()) id 1 256 2
    (⟨[], [], 0, []⟩ : EngineState Unit) (by simp)
  exact ⟨h.1, h.2 1 cexSNote [] (List.replicate 64 ())
    (by simp [maxVoicesDefault]) (by norm_num [cexSNote])⟩

end Songwalker
